import Mathlib

/- Shallow embedding of verify_ehc.py: the EHC transport decoder, trust-store
loaders, key resolver and verifier, and the per-input processing loop of main.
Machine byte strings are lists of naturals, timestamps are integers (epoch
seconds), and the external cryptographic primitives (SHA-256 fingerprinting,
DER certificate parsing, ECDSA verification, zlib inflation) are explicit
function parameters, so every definition stays executable. -/

namespace VerifyEhc

/-- Byte strings are modelled as lists of naturals. -/
abbrev Bytes := List Nat

/-- Error taxonomy of the pipeline.  In the Python source, missingKeyId,
unknownKeyId, unsupportedCurve, unsupportedKeyType and claimKeyError are all
KeyError, while invalidEncoding, keyIdMismatch and signatureInvalid are
ValueError; decompressionError is a zlib.error. -/
inductive Err where
  | invalidEncoding
  | decompressionError
  | malformedMessage
  | keyIdMismatch
  | signatureInvalid
  | missingKeyId
  | unknownKeyId
  | unsupportedCurve
  | unsupportedKeyType
  | claimKeyError
deriving DecidableEq

/-- Lookup in a Python dict modelled as an association list with unique keys
(first match). -/
def dictGet {κ α : Type} [DecidableEq κ] : List (κ × α) → κ → Option α
  | [], _ => none
  | p :: rest, k => if k = p.1 then some p.2 else dictGet rest k

/-- Assignment `d[k] = v` on a Python dict: replace the value in place if the
key is present, otherwise append a new entry. -/
def dictInsert {κ α : Type} [DecidableEq κ] : List (κ × α) → κ → α → List (κ × α)
  | [], k, v => [(k, v)]
  | p :: rest, k, v => if p.1 = k then (k, v) :: rest else p :: dictInsert rest k v

/-- Python dict.update: insert every entry of the second dict into the first,
in order (later entries overwrite earlier ones on key collision). -/
def dictUpdate {κ α : Type} [DecidableEq κ] (m l : List (κ × α)) : List (κ × α) :=
  l.foldl (fun acc p => dictInsert acc p.1 p.2) m

/-- Public-key material of a certificate (verify_ehc.py dispatches on
EllipticCurvePublicKey / RSAPublicKey / anything else).  For an EC key,
keySize is the curve's key_size in bits and x, y the affine coordinates. -/
inductive PublicKey where
  | ec (curveName : String) (keySize : Nat) (x y : Nat)
  | rsa (n e : Nat)
  | other (kind : String)
deriving DecidableEq

/-- An X.509 certificate as consulted by the verifier: validity window as
epoch seconds and the public key material.  The SHA-256 fingerprint of its
DER encoding is supplied as an abstract function parameter where needed. -/
structure Certificate where
  notBefore : Int
  notAfter : Int
  publicKey : PublicKey
deriving DecidableEq

/-- CertList = Dict[bytes, x509.Certificate] of the source. -/
abbrev CertList := List (Bytes × Certificate)

/-- Big-endian interpretation of a byte string as an unsigned integer
(int.from_bytes(bs, byteorder="big", signed=False)). -/
def bytesToNatBE (bs : Bytes) : Nat :=
  bs.foldl (fun acc b => acc * 256 + b) 0

/-- Fixed-width big-endian encoding n.to_bytes(size, byteorder="big"). -/
def natToBytesBE (n : Nat) : Nat → Bytes
  | 0 => []
  | size + 1 => natToBytesBE (n / 256) size ++ [n % 256]

/-- Minimal-length big-endian encoding
n.to_bytes((n.bit_length() + 7) // 8, byteorder="big"). -/
def natToBytesMinBE (n : Nat) : Bytes :=
  if h : n = 0 then [] else natToBytesMinBE (n / 256) ++ [n % 256]
decreasing_by exact Nat.div_lt_self (Nat.pos_of_ne_zero h) (by decide)

/-- COSE curve classes as values of the CURVES table: the three classes the
source imports by name on line 24 (P256, P384, P521), plus libCls for any
further CoseCurve subclass the reflection loop of lines 58 to 64 discovers
in the cose library, identified by its library fullname. -/
inductive CoseCurveT where
  | P256
  | P384
  | P521
  | libCls (fullname : String)
deriving DecidableEq

/-- Curve-name normalization CURVE_NAME_IGNORE.sub('', name).lower():
hyphens, underscores and spaces are stripped and the result lowercased. -/
def normalizeCurveName (s : String) : String :=
  String.mk ((s.data.filter (fun c => !(c == '-' || c == '_' || c == ' '))).map Char.toLower)

/-- Static curve-table entries of verify_ehc.py lines 50 to 56. -/
def CURVES_static : List (String × CoseCurveT) :=
  [("secp256r1", .P256), ("prime256v1", .P256), ("secp384r1", .P384), ("secp521r1", .P521)]

/-- The full CURVES dict of verify_ehc.py lines 50 to 64: the four static
entries, then the reflection loop over dir(cose.keys.curves), which inserts
every proper CoseCurve subclass of the external cose library whose fullname
is not RESERVED under its normalized fullname.  The library's curve classes
are the external input libCurves, each given as its fullname paired with its
class; insertion order and key collisions follow Python dict assignment. -/
def CURVES (libCurves : List (String × CoseCurveT)) : List (String × CoseCurveT) :=
  dictUpdate CURVES_static
    ((libCurves.filter (fun p => p.1 != "RESERVED")).map
      (fun p => (normalizeCurveName p.1, p.2)))

/-- Normalized names of the four static CURVES entries. -/
def supportedCurveNames : List String :=
  ["secp256r1", "prime256v1", "secp384r1", "secp521r1"]

/-- Curve classes every run of the source is known to find in the cose
library: P256, P384 and P521 are imported from cose.keys.curves on line 24,
so the reflection loop rediscovers at least these three classes, under the
library fullnames P_256, P_384 and P_521. -/
def importedLibCurves : List (String × CoseCurveT) :=
  [("P_256", .P256), ("P_384", .P384), ("P_521", .P521)]

/-- Library environment of the cose release this source runs against, which
ships the SECP256K1 curve class besides the imported NIST classes; the
reflection loop then inserts it under the normalized name secp256k1. -/
def k1LibCurves : List (String × CoseCurveT) :=
  importedLibCurves ++ [("SECP256K1", .libCls "SECP256K1")]

/-- A COSE verification key as built by CoseKey.from_dict: either an EC2 key
with curve and fixed-width coordinates, or an RSA key with minimal-length
exponent and modulus bytes. -/
inductive CoseKeyD where
  | ec2 (curve : CoseCurveT) (x y : Bytes)
  | rsaKey (e n : Bytes)
deriving DecidableEq

/-- Expiry flag exactly as computed on line 242 of verify_ehc.py:
cert_expired = now < cert.not_valid_before and now > cert.not_valid_after. -/
def certExpiredFlag (now nb na : Int) : Bool :=
  decide (now < nb) && decide (now > na)

/-- Modelled from the spec: the corrected OR-based expiry test of section 4.4
(now < not_before OR now > not_after), which the source does not implement. -/
def certExpiredOrSpec (now nb na : Int) : Bool :=
  decide (now < nb) || decide (now > na)

/-- Values of the decoded CBOR payload map: integers (timestamps), strings,
or the nested health-claims map under key -260.  The health-claims
sub-document itself is opaque to this core (spec section 3) and is modelled
as an identifier. -/
inductive CV where
  | num (n : Int)
  | str (s : String)
  | hcmap (m : List (Int × Nat))
deriving DecidableEq

/-- A parsed COSE message as consumed by verify_ehc: optional KID values of
the protected and unprotected headers, and the decoded payload map.  The
signature bytes stay inside the abstract verification oracle. -/
structure CoseMsg where
  phdrKid : Option Bytes
  uhdrKid : Option Bytes
  payload : List (Int × CV)

/-- Effective key id of line 224: msg.phdr.get(KID) or msg.uhdr[KID].
Python's `or` falls through on a falsy (empty) protected kid, and the
unprotected lookup raises KeyError when absent. -/
def effectiveKid (msg : CoseMsg) : Except Err Bytes :=
  match msg.phdrKid, msg.uhdrKid with
  | some k, u =>
    if k ≠ [] then .ok k
    else
      match u with
      | some k2 => .ok k2
      | none => .error .missingKeyId
  | none, some k2 => .ok k2
  | none, none => .error .missingKeyId

/-- Key reconstruction of verify_ehc lines 249 to 295: EC keys go through the
normalized-name lookup in the CURVES dict built over the library environment
libCurves (a miss raises the unsupported-curve KeyError), RSA keys are
encoded with minimal-length big-endian fields, and any other key kind
raises. -/
def buildKey (libCurves : List (String × CoseCurveT)) : PublicKey → Except Err CoseKeyD
  | .ec curveName keySize x y =>
    match dictGet (CURVES libCurves) (normalizeCurveName curveName) with
    | some curve =>
      .ok (.ec2 curve (natToBytesBE x (keySize / 8)) (natToBytesBE y (keySize / 8)))
    | none => .error .unsupportedCurve
  | .rsa n e => .ok (.rsaKey (natToBytesMinBE e) (natToBytesMinBE n))
  | .other _ => .error .unsupportedKeyType

/-- verify_ehc(msg, certs) with the cryptographic signature check abstracted
as the boolean oracle verifySig (msg.verify_signature() after msg.key is
set) and the library curve classes as the input libCurves.  Returns the
boolean of line 301: valid and not cert_expired. -/
def verify_ehc (libCurves : List (String × CoseCurveT))
    (verifySig : CoseMsg → CoseKeyD → Bool) (now : Int)
    (msg : CoseMsg) (certs : CertList) : Except Err Bool :=
  match effectiveKid msg with
  | .error e => .error e
  | .ok kid =>
    match dictGet certs kid with
    | none => .error .unknownKeyId
    | some cert =>
      let expired := certExpiredFlag now cert.notBefore cert.notAfter
      match buildKey libCurves cert.publicKey with
      | .error e => .error e
      | .ok key => .ok (verifySig msg key && !expired)

/-- Modelled from the spec: the base-45 alphabet of the external base45
library (section 4.1), digits then uppercase letters then the eight symbols. -/
def b45Alphabet : List Char :=
  ['0', '1', '2', '3', '4', '5', '6', '7', '8', '9',
   'A', 'B', 'C', 'D', 'E', 'F', 'G', 'H', 'I', 'J', 'K', 'L', 'M',
   'N', 'O', 'P', 'Q', 'R', 'S', 'T', 'U', 'V', 'W', 'X', 'Y', 'Z',
   ' ', '$', '%', '*', '+', '-', '.', '/', ':']

/-- Position of a character in a character list, used for base-45 digits. -/
def charIndexGo : List Char → Nat → Char → Option Nat
  | [], _, _ => none
  | a :: rest, i, c => if c = a then some i else charIndexGo rest (i + 1) c

/-- Modelled from the spec: base-45 digit value of a character, none when the
character is outside the alphabet. -/
def b45CharVal (c : Char) : Option Nat :=
  charIndexGo b45Alphabet 0 c

/-- Modelled from the spec: map every input character to its base-45 digit,
failing on the first character outside the alphabet. -/
def b45CharVals : List Char → Except Err (List Nat)
  | [] => .ok []
  | c :: rest =>
    match b45CharVal c with
    | none => .error .invalidEncoding
    | some v =>
      match b45CharVals rest with
      | .ok vs => .ok (v :: vs)
      | .error e => .error e

/-- Modelled from the spec: regroup base-45 digits, three digits little-endian
to two big-endian bytes, a trailing pair to one byte, a trailing single digit
or an overflowing group failing the decode. -/
def b45groups : List Nat → Except Err Bytes
  | [] => .ok []
  | [_] => .error .invalidEncoding
  | [a, b] =>
    if a + 45 * b < 256 then .ok [a + 45 * b] else .error .invalidEncoding
  | a :: b :: c :: rest =>
    if a + 45 * b + 2025 * c < 65536 then
      match b45groups rest with
      | .ok bs => .ok ((a + 45 * b + 2025 * c) / 256 :: (a + 45 * b + 2025 * c) % 256 :: bs)
      | .error e => .error e
    else .error .invalidEncoding

/-- Modelled from the spec: b45decode of the external base45 library. -/
def b45decodeChars (s : List Char) : Except Err Bytes :=
  match b45CharVals s with
  | .ok vs => b45groups vs
  | .error e => .error e

/-- Prefix stripping of decode_ehc lines 207 to 210: a leading literal HC1 is
dropped, then one following colon when present. -/
def stripHC1 (s : List Char) : List Char :=
  if s.take 3 = ['H', 'C', '1'] then
    if (s.drop 3).take 1 = [':'] then (s.drop 3).drop 1 else s.drop 3
  else s

/-- decode_ehc up to the CoseMessage.decode call (which belongs to the
external cose library): strip the HC1 prefix, base-45 decode (any failure is
reraised as the invalid-encoding ValueError of line 215), and inflate exactly
when the bytes start with 0x78, the zlib magic byte.  The inflater
(zlib.decompress) is an abstract parameter. -/
def decode_ehc (inflate : Bytes → Except Err Bytes) (s : List Char) : Except Err Bytes :=
  match b45decodeChars (stripHC1 s) with
  | .error _ => .error .invalidEncoding
  | .ok data => if data.head? = some 120 then inflate data else .ok data

/-- One element of the CBOR trust list: an 8-byte key id field i and DER
certificate bytes field c. -/
structure CborItem where
  i : Bytes
  c : Bytes
deriving DecidableEq

/-- Element loop of load_ehc_certs_cbor lines 122 to 130: parse each DER
certificate, compare the declared key id with the first 8 bytes of the
SHA-256 fingerprint, abort the whole load on mismatch, insert on success. -/
def loadCborGo (fp : Certificate → Bytes) (parse : Bytes → Certificate) :
    CertList → List CborItem → Except Err CertList
  | certs, [] => .ok certs
  | certs, item :: rest =>
    let cert := parse item.c
    if item.i = (fp cert).take 8 then
      loadCborGo fp parse (dictInsert certs item.i cert) rest
    else .error .keyIdMismatch

/-- load_ehc_certs_cbor with CBOR parsing already done (items is the list
under the map key c); fp is the SHA-256-of-DER fingerprint and parse the DER
certificate parser, both external primitives. -/
def load_ehc_certs_cbor (fp : Certificate → Bytes) (parse : Bytes → Certificate)
    (items : List CborItem) : Except Err CertList :=
  loadCborGo fp parse [] items

/-- One object of the certificates array of the signed-JSON trust list, with
the base64 fields already decoded to bytes. -/
structure JsonCert where
  kid : Bytes
  country : String
  certificateType : String
  rawData : Bytes
deriving DecidableEq

/-- Entry loop of load_ehc_certs_signed_json lines 152 to 167: entries whose
certificateType is not DSC are skipped with a warning; surviving entries get
the fingerprint-equality check, aborting the whole load on mismatch. -/
def loadSignedJsonGo (fp : Certificate → Bytes) (parse : Bytes → Certificate) :
    CertList → List JsonCert → Except Err CertList
  | certs, [] => .ok certs
  | certs, en :: rest =>
    if en.certificateType ≠ "DSC" then loadSignedJsonGo fp parse certs rest
    else
      let cert := parse en.rawData
      if en.kid = (fp cert).take 8 then
        loadSignedJsonGo fp parse (dictInsert certs en.kid cert) rest
      else .error .keyIdMismatch

/-- load_ehc_certs_signed_json with the base64 and JSON parsing already done:
sign is the decoded signature line, bodyBytes the raw JSON body bytes and
entries the certificates array.  When a public key is supplied, the signature
bytes are split exactly in half into big-endian unsigned integers r and s and
handed with the body bytes to the abstract ECDSA-SHA-256 verifier ev
(pubkey.verify(encode_dss_signature(r, s), body_json, ECDSA(SHA256()))); a
failed check raises and aborts the load. -/
def load_ehc_certs_signed_json (fp : Certificate → Bytes) (parse : Bytes → Certificate)
    (ev : Nat → Nat → Bytes → Bool) (pubkeySupplied : Bool)
    (sign bodyBytes : Bytes) (entries : List JsonCert) : Except Err CertList :=
  if pubkeySupplied then
    if ev (bytesToNatBE (sign.take (sign.length / 2)))
        (bytesToNatBE (sign.drop (sign.length / 2))) bodyBytes then
      loadSignedJsonGo fp parse [] entries
    else .error .signatureInvalid
  else loadSignedJsonGo fp parse [] entries

/-- Merging step of download_ehc_certs lines 171 to 204 with the network
fetching and per-source loading abstracted to the loaded stores: the stores
are folded into one dict with certs.update, in caller order. -/
def mergeCertLists (stores : List CertList) : CertList :=
  stores.foldl dictUpdate []

/-- One displayed line of main's per-input processing, reduced to the
information the claims are about: a flat claim line keyed by its integer
claim code, the Is Expired line, the Signature Valid outcome of verify_ehc,
and the health-claims sub-document print of lines 386 to 389. -/
inductive Out where
  | claimLine (key : Int)
  | isExpiredLine (expired : Bool)
  | verifyResult (valid : Bool)
  | payloadDoc (doc : Nat)
deriving DecidableEq

/-- Flat-claims loop of main lines 367 to 376: every payload key other than
-260 produces one printed line. -/
def flatClaimOuts (p : List (Int × CV)) : List Out :=
  (p.filter (fun q => q.1 != -260)).map (fun q => Out.claimLine q.1)

/-- Is Expired print of main lines 378 to 381: present exactly when payload
key 4 holds a numeric expires-at timestamp. -/
def expiredOut (now : Int) (p : List (Int × CV)) : List Out :=
  match dictGet p 4 with
  | some (.num n) => [Out.isExpiredLine (decide (now ≥ n))]
  | some _ => []
  | none => []

/-- Health-claims extraction ehc_payload[-260][1] of main line 386: a missing
-260 key, a missing sub-key 1, or a non-map -260 value aborts with an uncaught
KeyError. -/
def hcExtract (p : List (Int × CV)) : Except Err Nat :=
  match dictGet p (-260) with
  | some (.hcmap m) =>
    match dictGet m 1 with
    | some d => .ok d
    | none => .error .claimKeyError
  | some _ => .error .claimKeyError
  | none => .error .claimKeyError

/-- Processing of one input inside main's loop (lines 364 to 390), on an
already decoded message: print the flat claims and the Is Expired line, run
verify_ehc when a trust store is present, then extract and print the
health-claims sub-document.  The second component is the uncaught exception,
if any; outputs produced before the exception are kept. -/
def mainStep (libCurves : List (String × CoseCurveT)) (v : CoseMsg → CoseKeyD → Bool)
    (now : Int) (certs? : Option CertList) (msg : CoseMsg) : List Out × Option Err :=
  let outs := flatClaimOuts msg.payload ++ expiredOut now msg.payload
  match certs? with
  | some certs =>
    match verify_ehc libCurves v now msg certs with
    | .error e => (outs, some e)
    | .ok b =>
      match hcExtract msg.payload with
      | .ok doc => (outs ++ [Out.verifyResult b, Out.payloadDoc doc], none)
      | .error e2 => (outs ++ [Out.verifyResult b], some e2)
  | none =>
    match hcExtract msg.payload with
    | .ok doc => (outs ++ [Out.payloadDoc doc], none)
    | .error e2 => (outs, some e2)

/-- Batch loop for ehc_code in ehc_codes of main line 363: inputs are
processed in order and an uncaught exception stops the whole loop, keeping
the outputs printed so far. -/
def mainLoop (libCurves : List (String × CoseCurveT)) (v : CoseMsg → CoseKeyD → Bool)
    (now : Int) (certs? : Option CertList) : List CoseMsg → List Out × Option Err
  | [] => ([], none)
  | m :: rest =>
    match mainStep libCurves v now certs? m with
    | (o, some e) => (o, some e)
    | (o, none) =>
      match mainLoop libCurves v now certs? rest with
      | (o2, e2) => (o ++ o2, e2)

deriving instance DecidableEq for Except

/-- Lookup after insertion: the inserted key maps to the new value, every
other key is unaffected. -/
theorem dictGet_dictInsert {κ α : Type} [DecidableEq κ] (m : List (κ × α)) (k k2 : κ) (v : α) :
    dictGet (dictInsert m k v) k2 = if k2 = k then some v else dictGet m k2 := by
  induction m with
  | nil => simp [dictGet, dictInsert]
  | cons p rest ih =>
    by_cases h : p.1 = k
    · simp only [dictInsert, h, if_pos rfl, dictGet]
      by_cases h2 : k2 = k
      · simp [h2]
      · simp [h2, h ▸ h2, dictGet]
    · simp only [dictInsert, if_neg h, dictGet]
      by_cases h2 : k2 = p.1
      · have : ¬(k2 = k) := fun hk => h (by rw [← h2, hk])
        simp [h2, this, h]
      · simp [h2, ih]

/-- Every entry of an insertion result is the inserted pair or an original
entry. -/
theorem mem_dictInsert {κ α : Type} [DecidableEq κ] (m : List (κ × α)) (k : κ) (v : α)
    (p : κ × α) (hp : p ∈ dictInsert m k v) : p = (k, v) ∨ p ∈ m := by
  induction m with
  | nil => simpa [dictInsert] using hp
  | cons q rest ih =>
    by_cases h : q.1 = k
    · simp only [dictInsert, if_pos h] at hp
      rcases List.mem_cons.mp hp with h1 | h1
      · exact Or.inl h1
      · exact Or.inr (List.mem_cons_of_mem q h1)
    · simp only [dictInsert, if_neg h] at hp
      rcases List.mem_cons.mp hp with h1 | h1
      · exact Or.inr (h1 ▸ List.mem_cons_self q rest)
      · rcases ih h1 with h2 | h2
        · exact Or.inl h2
        · exact Or.inr (List.mem_cons_of_mem q h2)

/-- Keys after insertion are the inserted key together with the old keys. -/
theorem mem_keys_dictInsert {κ α : Type} [DecidableEq κ] (m : List (κ × α)) (k k2 : κ) (v : α) :
    k2 ∈ (dictInsert m k v).map Prod.fst ↔ k2 = k ∨ k2 ∈ m.map Prod.fst := by
  induction m with
  | nil => simp [dictInsert]
  | cons q rest ih =>
    by_cases h : q.1 = k
    · simp only [dictInsert, if_pos h, List.map_cons, List.mem_cons]
      constructor
      · rintro (h1 | h1)
        · exact Or.inl h1
        · exact Or.inr (Or.inr h1)
      · rintro (h1 | h1 | h1)
        · exact Or.inl h1
        · exact Or.inl (by rw [h1, h])
        · exact Or.inr h1
    · simp only [dictInsert, if_neg h, List.map_cons, List.mem_cons, ih]
      tauto

/-- Insertion keeps the keys of a dict free of duplicates. -/
theorem nodup_keys_dictInsert {κ α : Type} [DecidableEq κ] (m : List (κ × α)) (k : κ) (v : α)
    (hm : (m.map Prod.fst).Nodup) : ((dictInsert m k v).map Prod.fst).Nodup := by
  induction m with
  | nil => simp [dictInsert]
  | cons q rest ih =>
    simp only [List.map_cons, List.nodup_cons] at hm
    by_cases h : q.1 = k
    · simp only [dictInsert, if_pos h, List.map_cons, List.nodup_cons]
      exact ⟨h ▸ hm.1, hm.2⟩
    · simp only [dictInsert, if_neg h, List.map_cons, List.nodup_cons]
      refine ⟨fun hc => ?_, ih hm.2⟩
      rcases (mem_keys_dictInsert rest k q.1 v).mp hc with h1 | h1
      · exact h h1
      · exact hm.1 h1

/-- A dict lookup misses exactly when the key is absent from the key list. -/
theorem dictGet_eq_none_iff {κ α : Type} [DecidableEq κ] (m : List (κ × α)) (k : κ) :
    dictGet m k = none ↔ k ∉ m.map Prod.fst := by
  induction m with
  | nil => simp [dictGet]
  | cons q rest ih =>
    simp only [dictGet, List.map_cons, List.mem_cons]
    by_cases h : k = q.1
    · simp [h]
    · simp [h, ih]

/-- Unfolding dict.update over a cons cell. -/
theorem dictUpdate_cons {κ α : Type} [DecidableEq κ] (m : List (κ × α)) (p : κ × α)
    (l : List (κ × α)) : dictUpdate m (p :: l) = dictUpdate (dictInsert m p.1 p.2) l := rfl

/-- Updating with entries that all miss a key leaves that key's binding
unchanged. -/
theorem dictGet_dictUpdate_of_none {κ α : Type} [DecidableEq κ] (l : List (κ × α)) (k : κ)
    (hl : dictGet l k = none) : ∀ m, dictGet (dictUpdate m l) k = dictGet m k := by
  induction l with
  | nil => intro m; rfl
  | cons p rest ih =>
    intro m
    simp only [dictGet] at hl
    by_cases h : k = p.1
    · simp [h] at hl
    · simp only [if_neg h] at hl
      rw [dictUpdate_cons, ih hl, dictGet_dictInsert, if_neg h]

/-- Updating with a duplicate-free dict makes each of its bindings win. -/
theorem dictGet_dictUpdate_of_some {κ α : Type} [DecidableEq κ] (l : List (κ × α)) (k : κ)
    (v : α) (hnd : (l.map Prod.fst).Nodup) (hl : dictGet l k = some v) :
    ∀ m, dictGet (dictUpdate m l) k = some v := by
  induction l with
  | nil => simp [dictGet] at hl
  | cons p rest ih =>
    intro m
    simp only [List.map_cons, List.nodup_cons] at hnd
    simp only [dictGet] at hl
    by_cases h : k = p.1
    · simp only [if_pos h] at hl
      have hrest : dictGet rest k = none := by
        rw [dictGet_eq_none_iff]
        exact h ▸ hnd.1
      rw [dictUpdate_cons, dictGet_dictUpdate_of_none rest k hrest,
        dictGet_dictInsert, if_pos h, hl]
    · simp only [if_neg h] at hl
      rw [dictUpdate_cons]
      exact ih hnd.2 hl (dictInsert m p.1 p.2)

/-- Updating keeps the keys duplicate-free. -/
theorem nodup_keys_dictUpdate {κ α : Type} [DecidableEq κ] (l : List (κ × α)) :
    ∀ m : List (κ × α), (m.map Prod.fst).Nodup → ((dictUpdate m l).map Prod.fst).Nodup := by
  induction l with
  | nil => intro m hm; exact hm
  | cons p rest ih =>
    intro m hm
    rw [dictUpdate_cons]
    exact ih (dictInsert m p.1 p.2) (nodup_keys_dictInsert m p.1 p.2 hm)

/-- A dict lookup hits exactly when the key occurs in the key list. -/
theorem isSome_dictGet_iff {κ α : Type} [DecidableEq κ] (m : List (κ × α)) (k : κ) :
    (dictGet m k).isSome ↔ k ∈ m.map Prod.fst := by
  rw [Option.isSome_iff_ne_none, Ne, dictGet_eq_none_iff, not_not]

/-- The keys after dict.update are the original keys together with the keys
of the update list. -/
theorem mem_keys_dictUpdate {κ α : Type} [DecidableEq κ] (l : List (κ × α)) :
    ∀ (m : List (κ × α)) (k : κ),
      k ∈ (dictUpdate m l).map Prod.fst ↔ k ∈ m.map Prod.fst ∨ k ∈ l.map Prod.fst := by
  induction l with
  | nil => simp [dictUpdate]
  | cons p rest ih =>
    intro m k
    rw [dictUpdate_cons, ih, mem_keys_dictInsert]
    simp only [List.map_cons, List.mem_cons]
    tauto

/-- A character outside the base-45 alphabet makes the digit mapping fail
with the invalid-encoding error. -/
theorem b45CharVals_error_of_invalid (s : List Char)
    (h : ∃ c ∈ s, b45CharVal c = none) : b45CharVals s = .error .invalidEncoding := by
  induction s with
  | nil => simp at h
  | cons a rest ih =>
    obtain ⟨c, hc, hval⟩ := h
    rcases List.mem_cons.mp hc with h1 | h1
    · simp only [b45CharVals, h1 ▸ hval]
    · cases hb : b45CharVal a with
      | none => simp only [b45CharVals, hb]
      | some v => simp only [b45CharVals, hb, ih ⟨c, h1, hval⟩]

/-- The CBOR element loop only ever admits entries whose key id equals the
first 8 bytes of the certificate fingerprint. -/
theorem loadCborGo_inv (fp : Certificate → Bytes) (parse : Bytes → Certificate)
    (items : List CborItem) :
    ∀ acc store, (∀ p ∈ acc, p.1 = (fp p.2).take 8) →
      loadCborGo fp parse acc items = .ok store → ∀ p ∈ store, p.1 = (fp p.2).take 8 := by
  induction items with
  | nil =>
    intro acc store hacc hok
    simp only [loadCborGo] at hok
    cases hok
    exact hacc
  | cons item rest ih =>
    intro acc store hacc hok
    simp only [loadCborGo] at hok
    by_cases h : item.i = (fp (parse item.c)).take 8
    · rw [if_pos h] at hok
      refine ih _ store ?_ hok
      intro p hp
      rcases mem_dictInsert acc item.i (parse item.c) p hp with h1 | h1
      · rw [h1]; exact h
      · exact hacc p h1
    · rw [if_neg h] at hok
      cases hok

/-- A CBOR element whose declared key id mismatches its certificate's
fingerprint aborts the element loop with KeyIdMismatch. -/
theorem loadCborGo_abort (fp : Certificate → Bytes) (parse : Bytes → Certificate)
    (items : List CborItem) (h : ∃ it ∈ items, it.i ≠ (fp (parse it.c)).take 8) :
    ∀ acc, loadCborGo fp parse acc items = .error .keyIdMismatch := by
  induction items with
  | nil => simp at h
  | cons item rest ih =>
    intro acc
    obtain ⟨it, hit, hbad⟩ := h
    by_cases hg : item.i = (fp (parse item.c)).take 8
    · simp only [loadCborGo, if_pos hg]
      rcases List.mem_cons.mp hit with h1 | h1
      · exact absurd (h1 ▸ hg) hbad
      · exact ih ⟨it, h1, hbad⟩ _
    · simp only [loadCborGo, if_neg hg]

/-- The signed-JSON entry loop only ever admits entries whose key id equals
the first 8 bytes of the certificate fingerprint. -/
theorem loadSignedJsonGo_inv (fp : Certificate → Bytes) (parse : Bytes → Certificate)
    (entries : List JsonCert) :
    ∀ acc store, (∀ p ∈ acc, p.1 = (fp p.2).take 8) →
      loadSignedJsonGo fp parse acc entries = .ok store →
      ∀ p ∈ store, p.1 = (fp p.2).take 8 := by
  induction entries with
  | nil =>
    intro acc store hacc hok
    simp only [loadSignedJsonGo] at hok
    cases hok
    exact hacc
  | cons en rest ih =>
    intro acc store hacc hok
    simp only [loadSignedJsonGo] at hok
    by_cases hd : en.certificateType ≠ "DSC"
    · rw [if_pos hd] at hok
      exact ih acc store hacc hok
    · rw [if_neg hd] at hok
      by_cases h : en.kid = (fp (parse en.rawData)).take 8
      · rw [if_pos h] at hok
        refine ih _ store ?_ hok
        intro p hp
        rcases mem_dictInsert acc en.kid (parse en.rawData) p hp with h1 | h1
        · rw [h1]; exact h
        · exact hacc p h1
      · rw [if_neg h] at hok
        cases hok

/-- A DSC entry whose declared key id mismatches its certificate's
fingerprint aborts the signed-JSON entry loop with KeyIdMismatch. -/
theorem loadSignedJsonGo_abort (fp : Certificate → Bytes) (parse : Bytes → Certificate)
    (entries : List JsonCert)
    (h : ∃ en ∈ entries, en.certificateType = "DSC" ∧ en.kid ≠ (fp (parse en.rawData)).take 8) :
    ∀ acc, loadSignedJsonGo fp parse acc entries = .error .keyIdMismatch := by
  induction entries with
  | nil => simp at h
  | cons en rest ih =>
    intro acc
    obtain ⟨x, hx, hdsc, hbad⟩ := h
    rcases List.mem_cons.mp hx with h1 | h1
    · subst h1
      simp only [loadSignedJsonGo, hdsc]
      rw [if_neg (by simp : ¬("DSC" : String) ≠ "DSC"), if_neg hbad]
    · by_cases hd : en.certificateType ≠ "DSC"
      · simp only [loadSignedJsonGo, if_pos hd]
        exact ih ⟨x, h1, hdsc, hbad⟩ acc
      · simp only [loadSignedJsonGo, if_neg hd]
        by_cases hg : en.kid = (fp (parse en.rawData)).take 8
        · rw [if_pos hg]
          exact ih ⟨x, h1, hdsc, hbad⟩ _
        · rw [if_neg hg]

/-- A non-DSC entry is skipped: removing it anywhere from the entry list does
not change the result of the entry loop. -/
theorem loadSignedJsonGo_skip (fp : Certificate → Bytes) (parse : Bytes → Certificate)
    (en : JsonCert) (hen : en.certificateType ≠ "DSC") (pre post : List JsonCert) :
    ∀ acc, loadSignedJsonGo fp parse acc (pre ++ en :: post) =
      loadSignedJsonGo fp parse acc (pre ++ post) := by
  induction pre with
  | nil =>
    intro acc
    simp only [List.nil_append, loadSignedJsonGo, if_pos hen]
  | cons q rest ih =>
    intro acc
    simp only [List.cons_append, loadSignedJsonGo]
    by_cases hd : q.certificateType ≠ "DSC"
    · rw [if_pos hd, if_pos hd]
      exact ih acc
    · rw [if_neg hd, if_neg hd]
      by_cases hg : q.kid = (fp (parse q.rawData)).take 8
      · rw [if_pos hg, if_pos hg]
        exact ih _
      · rw [if_neg hg, if_neg hg]

/-- Certificate fixture with a validity window already over at time 100. -/
def pastCert : Certificate :=
  { notBefore := 0, notAfter := 50, publicKey := .ec "secp256r1" 8 1 2 }

/-- One-entry trust store for the expired-certificate scenario. -/
def pastStore : CertList := [([3], pastCert)]

/-- Message fixture whose key id resolves to the expired certificate. -/
def pastMsg : CoseMsg :=
  { phdrKid := some [3], uhdrKid := none, payload := [] }

/-- C1: the claim says the certificate-expired flag is the OR-based test, so
that a certificate whose not_after lies in the past is reported expired.  The
code computes now < not_before AND now > not_after (line 242), which is false
for a certificate whose window [0, 50] lies entirely before now = 100, and
verify_ehc consequently reports such a certificate as verified.  The OR test
the spec mandates reports it expired. -/
theorem c1_expiry_test_is_and_not_or :
    certExpiredFlag 100 0 50 = false ∧
    certExpiredOrSpec 100 0 50 = true ∧
    verify_ehc importedLibCurves (fun _ _ => true) 100 pastMsg pastStore = .ok true := by
  decide

/-- Certificate fixture that is inside its validity window at time 100. -/
def liveCert : Certificate :=
  { notBefore := 0, notAfter := 1000, publicKey := .ec "secp256r1" 8 1 2 }

/-- Trust store holding liveCert under key id 9. -/
def liveStore : CertList := [([9], liveCert)]

/-- Batch message whose key id 1 is absent from liveStore and whose payload
carries a flat claim (key 1) plus a health-claims document 42. -/
def unknownKidMsg : CoseMsg :=
  { phdrKid := some [1], uhdrKid := none,
    payload := [(1, .str "AT"), (-260, .hcmap [(1, 42)])] }

/-- Second batch message, resolvable against liveStore, whose flat claim key
99 marks its processing. -/
def secondMsg : CoseMsg :=
  { phdrKid := some [9], uhdrKid := none,
    payload := [(99, .num 5), (-260, .hcmap [(1, 43)])] }

/-- C2 counterexample: in the two-input batch [unknownKidMsg, secondMsg] the
first input fails with UnknownKeyId, and contrary to the claim this failure
does abort the batch (no output of the second input appears) and does prevent
the health-claims output of the failing input. -/
theorem c2_counterexample :
    (mainLoop importedLibCurves (fun _ _ => true) 100 (some liveStore)
      [unknownKidMsg, secondMsg]).2 = some Err.unknownKeyId ∧
    Out.payloadDoc 42 ∉
      (mainLoop importedLibCurves (fun _ _ => true) 100 (some liveStore)
        [unknownKidMsg, secondMsg]).1 ∧
    Out.claimLine 99 ∉
      (mainLoop importedLibCurves (fun _ _ => true) 100 (some liveStore)
        [unknownKidMsg, secondMsg]).1 := by
  decide

/-- C2 amended: when verifying the first input of a batch fails with one of
MissingKeyId, UnknownKeyId, UnsupportedCurve or UnsupportedKeyType, the
uncaught exception stops the batch loop: the produced outputs are exactly the
flat-claims and Is Expired lines of the failing input (printed before
verification), so no further input is processed and the failing input's
health-claims sub-document is never output. -/
theorem c2_fatal_verify_error_aborts_batch (libCurves : List (String × CoseCurveT))
    (v : CoseMsg → CoseKeyD → Bool) (now : Int)
    (certs : CertList) (m : CoseMsg) (rest : List CoseMsg) (e : Err)
    (he : verify_ehc libCurves v now m certs = .error e)
    (hfatal : e = .missingKeyId ∨ e = .unknownKeyId ∨
      e = .unsupportedCurve ∨ e = .unsupportedKeyType) :
    mainLoop libCurves v now (some certs) (m :: rest) =
      (flatClaimOuts m.payload ++ expiredOut now m.payload, some e) ∧
    ∀ d, Out.payloadDoc d ∉ (mainLoop libCurves v now (some certs) (m :: rest)).1 := by
  have hstep : mainStep libCurves v now (some certs) m =
      (flatClaimOuts m.payload ++ expiredOut now m.payload, some e) := by
    simp only [mainStep, he]
  constructor
  · simp only [mainLoop, hstep]
  · intro d
    simp only [mainLoop, hstep, List.mem_append]
    rintro (hd | hd)
    · simp only [flatClaimOuts, List.mem_map] at hd
      obtain ⟨q, _, hq⟩ := hd
      cases hq
    · simp only [expiredOut] at hd
      rcases hg : dictGet m.payload 4 with _ | val
      · rw [hg] at hd; simp at hd
      · rw [hg] at hd
        cases val with
        | num n => rw [List.mem_singleton] at hd; cases hd
        | str s => simp at hd
        | hcmap mm => simp at hd

/-- C2 amended witness: the general abort theorem applied to the concrete
two-input batch of the counterexample. -/
theorem c2_fatal_verify_error_aborts_batch_witness :
    mainLoop importedLibCurves (fun _ _ => true) 100 (some liveStore)
      [unknownKidMsg, secondMsg] =
      (flatClaimOuts unknownKidMsg.payload ++ expiredOut 100 unknownKidMsg.payload,
       some Err.unknownKeyId) :=
  (c2_fatal_verify_error_aborts_batch importedLibCurves (fun _ _ => true) 100 liveStore
    unknownKidMsg [secondMsg] Err.unknownKeyId (by decide) (Or.inr (Or.inl rfl))).1

/-- C4: the final verification result of verify_ehc is exactly
signature_valid AND NOT certificate_expired, for every boolean outcome of the
cryptographic check: whenever key id resolution, certificate lookup and key
reconstruction succeed, the function returns ok of that conjunction and in
particular never raises on a cryptographic mismatch (verifySig false). -/
theorem c4_result_is_valid_and_not_expired (libCurves : List (String × CoseCurveT))
    (v : CoseMsg → CoseKeyD → Bool) (now : Int)
    (msg : CoseMsg) (certs : CertList) (kid : Bytes) (cert : Certificate) (key : CoseKeyD)
    (h1 : effectiveKid msg = .ok kid) (h2 : dictGet certs kid = some cert)
    (h3 : buildKey libCurves cert.publicKey = .ok key) :
    verify_ehc libCurves v now msg certs =
      .ok (v msg key && !(certExpiredFlag now cert.notBefore cert.notAfter)) := by
  simp only [verify_ehc, h1, h2, h3]

/-- C4 witness: with a constantly-false cryptographic oracle (a signature
mismatch) the concrete verification returns ok false rather than raising. -/
theorem c4_result_is_valid_and_not_expired_witness :
    verify_ehc importedLibCurves (fun _ _ => false) 100 secondMsg liveStore = .ok false := by
  have h := c4_result_is_valid_and_not_expired importedLibCurves (fun _ _ => false) 100
    secondMsg liveStore [9] liveCert (.ec2 .P256 [1] [2]) (by decide) (by decide) (by decide)
  simpa using h

/-- Placeholder certificate produced by the demo DER parser. -/
def demoCert : Certificate :=
  { notBefore := 0, notAfter := 1000, publicKey := .other "demo" }

/-- Demo DER parser: every byte string parses to demoCert. -/
def demoParse (_ : Bytes) : Certificate := demoCert

/-- Demo fingerprint function: every certificate hashes to the fixed 9-byte
string 1..9, whose first 8 bytes are 1..8. -/
def demoFingerprint (_ : Certificate) : Bytes := [1, 2, 3, 4, 5, 6, 7, 8, 9]

/-- Signed-JSON entry of type CSCA (not DSC) whose declared key id 0 does not
match the first 8 bytes of its certificate's fingerprint. -/
def nonDscBadEntry : JsonCert :=
  { kid := [0], country := "XX", certificateType := "CSCA", rawData := [] }

/-- C3 counterexample: the signed-JSON loader, given a source whose one
element violates the key-id equality but carries certificateType CSCA, skips
the element and returns an empty store instead of raising KeyIdMismatch,
because the skip of non-DSC entries happens before the fingerprint check. -/
theorem c3_counterexample :
    nonDscBadEntry.kid ≠ (demoFingerprint (demoParse nonDscBadEntry.rawData)).take 8 ∧
    load_ehc_certs_signed_json demoFingerprint demoParse (fun _ _ _ => true) false [] []
      [nonDscBadEntry] = .ok [] ∧
    load_ehc_certs_signed_json demoFingerprint demoParse (fun _ _ _ => true) false [] []
      [nonDscBadEntry] ≠ .error .keyIdMismatch := by
  decide

/-- C3 amended: every entry of a store produced by either loader satisfies
key_id = SHA256(DER)[0:8]; any violating element of a CBOR source, and any
violating element with certificateType DSC of a signed-JSON source, makes the
loader raise KeyIdMismatch, aborting the whole load so that no store (hence
no entry of that source) is produced; non-DSC elements of a signed-JSON
source are skipped without being checked. -/
theorem c3_key_id_invariant (fp : Certificate → Bytes) (parse : Bytes → Certificate)
    (ev : Nat → Nat → Bytes → Bool) (pk : Bool) (sign bodyBytes : Bytes)
    (items : List CborItem) (entries : List JsonCert) :
    (∀ store, load_ehc_certs_cbor fp parse items = .ok store →
      ∀ p ∈ store, p.1 = (fp p.2).take 8) ∧
    (∀ store, load_ehc_certs_signed_json fp parse ev pk sign bodyBytes entries = .ok store →
      ∀ p ∈ store, p.1 = (fp p.2).take 8) ∧
    ((∃ it ∈ items, it.i ≠ (fp (parse it.c)).take 8) →
      load_ehc_certs_cbor fp parse items = .error .keyIdMismatch) ∧
    ((∃ en ∈ entries, en.certificateType = "DSC" ∧ en.kid ≠ (fp (parse en.rawData)).take 8) →
      load_ehc_certs_signed_json fp parse ev false sign bodyBytes entries =
        .error .keyIdMismatch) := by
  refine ⟨?_, ?_, ?_, ?_⟩
  · intro store hok
    exact loadCborGo_inv fp parse items [] store (by simp) hok
  · intro store hok
    have hgo : loadSignedJsonGo fp parse [] entries = .ok store := by
      unfold load_ehc_certs_signed_json at hok
      cases pk with
      | false => simpa using hok
      | true =>
        simp only [if_pos rfl] at hok
        rcases hev : ev (bytesToNatBE (sign.take (sign.length / 2)))
            (bytesToNatBE (sign.drop (sign.length / 2))) bodyBytes with _ | _
        · rw [hev] at hok; simp at hok
        · rw [hev] at hok; simpa using hok
    exact loadSignedJsonGo_inv fp parse entries [] store (by simp) hgo
  · intro h
    exact loadCborGo_abort fp parse items h []
  · intro h
    simpa [load_ehc_certs_signed_json] using loadSignedJsonGo_abort fp parse entries h []

/-- CBOR trust-list element whose declared key id matches the demo
fingerprint's first 8 bytes. -/
def goodCborItem : CborItem := { i := [1, 2, 3, 4, 5, 6, 7, 8], c := [77] }

/-- CBOR trust-list element whose declared key id does not match. -/
def badCborItem : CborItem := { i := [9, 9], c := [77] }

/-- C3 amended witness: the invariant theorem applied to a concrete accepted
source, and the abort conjunct applied to a concrete violating source. -/
theorem c3_key_id_invariant_witness :
    (∀ p ∈ ([([1, 2, 3, 4, 5, 6, 7, 8], demoCert)] : CertList),
      p.1 = (demoFingerprint p.2).take 8) ∧
    load_ehc_certs_cbor demoFingerprint demoParse [badCborItem] = .error .keyIdMismatch := by
  constructor
  · exact (c3_key_id_invariant demoFingerprint demoParse (fun _ _ _ => true) false [] []
      [goodCborItem] []).1 _ (by decide)
  · exact (c3_key_id_invariant demoFingerprint demoParse (fun _ _ _ => true) false [] []
      [badCborItem] []).2.2.1 ⟨badCborItem, by simp, by decide⟩

/-- Demo inflater standing for zlib.decompress: prepends a marker byte. -/
def demoInflate (d : Bytes) : Except Err Bytes := .ok (200 :: d)

/-- C5: the transport decoder strips a leading HC1 prefix with its optional
colon; any character outside the base-45 alphabet in the remainder makes it
fail with InvalidEncoding; and on a successful base-45 decode it inflates the
bytes exactly when they begin with 0x78, passing them through unchanged
otherwise. -/
theorem c5_transport_decoder (inflate : Bytes → Except Err Bytes) (s : List Char)
    (data : Bytes) (hdec : b45decodeChars s = .ok data) :
    stripHC1 (['H', 'C', '1', ':'] ++ s) = s ∧
    decode_ehc inflate (['H', 'C', '1', ':'] ++ s) =
      (if data.head? = some 120 then inflate data else .ok data) ∧
    (∀ t : List Char, (∃ c ∈ t, b45CharVal c = none) →
      decode_ehc inflate (['H', 'C', '1', ':'] ++ t) = .error .invalidEncoding) := by
  refine ⟨rfl, ?_, ?_⟩
  · have hs : stripHC1 (['H', 'C', '1', ':'] ++ s) = s := rfl
    simp only [decode_ehc, hs, hdec]
  · intro t ht
    have hs : stripHC1 (['H', 'C', '1', ':'] ++ t) = t := rfl
    have hv : b45CharVals t = .error .invalidEncoding := b45CharVals_error_of_invalid t ht
    simp only [decode_ehc, hs, b45decodeChars, hv]

/-- C5 witness: concrete runs of the transport decoder, one hitting the zlib
branch (base-45 of U2 is the single byte 0x78), one passing bytes through
uncompressed, and one failing on a character outside the alphabet. -/
theorem c5_transport_decoder_witness :
    decode_ehc demoInflate ['H', 'C', '1', ':', 'U', '2'] = .ok [200, 120] ∧
    decode_ehc demoInflate ['H', 'C', '1', ':', '3', '2'] = .ok [93] ∧
    decode_ehc demoInflate ['H', 'C', '1', ':', '~'] = .error .invalidEncoding := by
  refine ⟨?_, ?_, ?_⟩
  · have h := (c5_transport_decoder demoInflate ['U', '2'] [120] (by decide)).2.1
    simpa [demoInflate] using h
  · have h := (c5_transport_decoder demoInflate ['3', '2'] [93] (by decide)).2.1
    simpa using h
  · exact (c5_transport_decoder demoInflate [] [] (by decide)).2.2 ['~'] ⟨'~', by simp, by decide⟩

/-- Message fixture whose protected header carries an empty (falsy) key id
and whose unprotected header carries key id 1. -/
def emptyPhdrKidMsg : CoseMsg :=
  { phdrKid := some [], uhdrKid := some [1], payload := [] }

/-- C6 counterexample: the protected-header key id is present (the empty byte
string), yet the effective key id is the unprotected one, because line 224
uses Python or, which falls through on a falsy value, not on absence. -/
theorem c6_counterexample :
    emptyPhdrKidMsg.phdrKid = some [] ∧
    effectiveKid emptyPhdrKidMsg = .ok [1] ∧
    effectiveKid emptyPhdrKidMsg ≠ .ok [] := by
  decide

/-- C6 amended: the effective key id is the protected-header key id when that
field is present and non-empty; otherwise it is the unprotected-header key id
when present; when the unprotected key id is absent and the protected one is
absent or empty, verification fails with MissingKeyId. -/
theorem c6_effective_kid (msg : CoseMsg) :
    (∀ k, msg.phdrKid = some k → k ≠ [] → effectiveKid msg = .ok k) ∧
    (∀ u, (msg.phdrKid = none ∨ msg.phdrKid = some []) → msg.uhdrKid = some u →
      effectiveKid msg = .ok u) ∧
    ((msg.phdrKid = none ∨ msg.phdrKid = some []) → msg.uhdrKid = none →
      effectiveKid msg = .error .missingKeyId) := by
  obtain ⟨p, u, pay⟩ := msg
  refine ⟨?_, ?_, ?_⟩
  · rintro k rfl hk
    cases u <;> simp [effectiveKid, hk]
  · rintro u2 (rfl | rfl) rfl <;> simp [effectiveKid]
  · rintro (rfl | rfl) rfl <;> simp [effectiveKid]

/-- C6 amended witness: the three branches of the effective-key-id rule at
concrete headers. -/
theorem c6_effective_kid_witness :
    effectiveKid { phdrKid := some [5], uhdrKid := some [1], payload := [] } = .ok [5] ∧
    effectiveKid emptyPhdrKidMsg = .ok [1] ∧
    effectiveKid { phdrKid := some [], uhdrKid := none, payload := [] } =
      .error .missingKeyId := by
  refine ⟨?_, ?_, ?_⟩
  · exact (c6_effective_kid _).1 [5] rfl (by decide)
  · exact (c6_effective_kid emptyPhdrKidMsg).2.1 [1] (Or.inr rfl) rfl
  · exact (c6_effective_kid _).2.2 (Or.inr rfl) rfl

/-- C7: with a verification public key supplied, the signed-JSON loader
verifies the body bytes against the signature halves, interpreted as
big-endian unsigned integers r and s taken from the exact halves of the
signature bytes, through the abstract ECDSA-SHA-256 check; a failed check
aborts the load with SignatureInvalid, a passing check proceeds exactly as an
unsigned load; and a non-DSC entry anywhere in the array is skipped with a
warning, leaving the result unchanged. -/
theorem c7_signed_json_signature_and_skip (fp : Certificate → Bytes)
    (parse : Bytes → Certificate) (ev : Nat → Nat → Bytes → Bool)
    (sign bodyBytes : Bytes) (entries pre post : List JsonCert) (en : JsonCert) :
    (ev (bytesToNatBE (sign.take (sign.length / 2)))
        (bytesToNatBE (sign.drop (sign.length / 2))) bodyBytes = false →
      load_ehc_certs_signed_json fp parse ev true sign bodyBytes entries =
        .error .signatureInvalid) ∧
    (ev (bytesToNatBE (sign.take (sign.length / 2)))
        (bytesToNatBE (sign.drop (sign.length / 2))) bodyBytes = true →
      load_ehc_certs_signed_json fp parse ev true sign bodyBytes entries =
        load_ehc_certs_signed_json fp parse ev false sign bodyBytes entries) ∧
    (en.certificateType ≠ "DSC" →
      load_ehc_certs_signed_json fp parse ev false sign bodyBytes (pre ++ en :: post) =
        load_ehc_certs_signed_json fp parse ev false sign bodyBytes (pre ++ post)) := by
  refine ⟨?_, ?_, ?_⟩
  · intro h
    simp [load_ehc_certs_signed_json, h]
  · intro h
    simp [load_ehc_certs_signed_json, h]
  · intro h
    simpa [load_ehc_certs_signed_json] using
      loadSignedJsonGo_skip fp parse en h pre post []

/-- Signed-JSON DSC entry whose key id matches the demo fingerprint. -/
def dscGoodEntry : JsonCert :=
  { kid := [1, 2, 3, 4, 5, 6, 7, 8], country := "DE", certificateType := "DSC",
    rawData := [5] }

/-- Signed-JSON entry of type CSCA, to be skipped by the entry loop. -/
def cscaSkipEntry : JsonCert :=
  { kid := [4], country := "DE", certificateType := "CSCA", rawData := [6] }

/-- C7 witness: a failing outer signature aborts a concrete load, and a CSCA
entry inside a concrete array is skipped without affecting the result. -/
theorem c7_signed_json_signature_and_skip_witness :
    load_ehc_certs_signed_json demoFingerprint demoParse (fun _ _ _ => false) true
      [1, 2] [7] [dscGoodEntry] = .error .signatureInvalid ∧
    load_ehc_certs_signed_json demoFingerprint demoParse (fun _ _ _ => true) false
      [] [] [dscGoodEntry, cscaSkipEntry] =
      load_ehc_certs_signed_json demoFingerprint demoParse (fun _ _ _ => true) false
        [] [] [dscGoodEntry] := by
  constructor
  · exact (c7_signed_json_signature_and_skip demoFingerprint demoParse (fun _ _ _ => false)
      [1, 2] [7] [dscGoodEntry] [] [] cscaSkipEntry).1 rfl
  · exact (c7_signed_json_signature_and_skip demoFingerprint demoParse (fun _ _ _ => true)
      [] [] [] [dscGoodEntry] [] cscaSkipEntry).2.2 (by decide)

/-- Keys of the constructed CURVES dict: the four static names together with
the normalized non-RESERVED fullnames of the library's curve classes. -/
theorem mem_keys_CURVES (libCurves : List (String × CoseCurveT)) (s : String) :
    s ∈ (CURVES libCurves).map Prod.fst ↔
      s ∈ supportedCurveNames ∨
      s ∈ (libCurves.filter (fun p => p.1 != "RESERVED")).map
        (fun p => normalizeCurveName p.1) := by
  unfold CURVES
  rw [mem_keys_dictUpdate, List.map_map]
  have h1 : CURVES_static.map Prod.fst = supportedCurveNames := rfl
  have h2 : (Prod.fst ∘ fun p : String × CoseCurveT => (normalizeCurveName p.1, p.2)) =
      (fun p : String × CoseCurveT => normalizeCurveName p.1) := rfl
  rw [h1, h2]

/-- Certificate fixture on the secp256k1 curve, outside the claimed
four-name set. -/
def k1Cert : Certificate :=
  { notBefore := 0, notAfter := 1000, publicKey := .ec "secp256k1" 256 1 2 }

/-- Trust store holding the secp256k1 certificate under key id 8. -/
def k1Store : CertList := [([8], k1Cert)]

/-- Message fixture resolving to the secp256k1 certificate. -/
def k1Msg : CoseMsg :=
  { phdrKid := some [8], uhdrKid := none, payload := [] }

/-- C8 counterexample: the reflection loop of lines 58 to 64 is repository
code, and in the library environment shipping the SECP256K1 class it inserts
the normalized name secp256k1 into the CURVES table; a certificate on that
curve, whose name lies outside the claimed four-name set, therefore does not
fail with UnsupportedCurve: key reconstruction and verification complete. -/
theorem c8_counterexample :
    normalizeCurveName "secp256k1" ∉ supportedCurveNames ∧
    buildKey k1LibCurves (.ec "secp256k1" 256 1 2) ≠ .error .unsupportedCurve ∧
    verify_ehc k1LibCurves (fun _ _ => true) 100 k1Msg k1Store = .ok true := by
  decide

/-- C8 amended: the CURVES table holds exactly the four static normalized
names secp256r1, prime256v1, secp384r1 and secp521r1 together with the
normalized non-RESERVED fullname of every curve class the reflection loop
finds in the cose library; an EC key's curve name is looked up after
stripping hyphens, underscores and spaces and lowercasing, failing with
UnsupportedCurve exactly when the name is absent from that table; a key kind
other than EC or RSA fails with UnsupportedKeyType; and a key-reconstruction
error surfaces as the verification failure. -/
theorem c8_curve_and_key_dispatch (libCurves : List (String × CoseCurveT))
    (v : CoseMsg → CoseKeyD → Bool) (now : Int)
    (msg : CoseMsg) (certs : CertList) (kid : Bytes) (cert : Certificate) (e : Err) :
    (∀ s : String, (dictGet (CURVES libCurves) s).isSome ↔
      s ∈ supportedCurveNames ∨
      s ∈ (libCurves.filter (fun p => p.1 != "RESERVED")).map
        (fun p => normalizeCurveName p.1)) ∧
    (∀ name keySize x y,
      buildKey libCurves (.ec name keySize x y) = .error .unsupportedCurve ↔
        dictGet (CURVES libCurves) (normalizeCurveName name) = none) ∧
    (∀ kind, buildKey libCurves (.other kind) = .error .unsupportedKeyType) ∧
    (effectiveKid msg = .ok kid → dictGet certs kid = some cert →
      buildKey libCurves cert.publicKey = .error e →
      verify_ehc libCurves v now msg certs = .error e) := by
  refine ⟨?_, ?_, fun _ => rfl, ?_⟩
  · intro s
    rw [isSome_dictGet_iff]
    exact mem_keys_CURVES libCurves s
  · intro name keySize x y
    rcases hc : dictGet (CURVES libCurves) (normalizeCurveName name) with _ | curve
    · simp [buildKey, hc]
    · simp [buildKey, hc]
  · intro h1 h2 h3
    simp only [verify_ehc, h1, h2, h3]

/-- Certificate fixture on a curve outside the table in every environment
modelled here. -/
def brainpoolCert : Certificate :=
  { notBefore := 0, notAfter := 1000, publicKey := .ec "brainpoolP256r1" 256 1 2 }

/-- Trust store holding the brainpool certificate under key id 7. -/
def brainpoolStore : CertList := [([7], brainpoolCert)]

/-- Message fixture resolving to the brainpool certificate. -/
def brainpoolMsg : CoseMsg :=
  { phdrKid := some [7], uhdrKid := none, payload := [] }

/-- C8 witness: the amended dispatch theorem at the imported-classes library
environment: a separator-and-case variant of prime256v1 hits the table, a
brainpool curve misses it and fails key reconstruction with
UnsupportedCurve, a non-EC/RSA key fails with UnsupportedKeyType, and the
unsupported-curve error surfaces from the concrete verification. -/
theorem c8_curve_and_key_dispatch_witness :
    (dictGet (CURVES importedLibCurves) (normalizeCurveName "Prime-256 V1")).isSome ∧
    buildKey importedLibCurves (.ec "brainpoolP256r1" 256 1 2) =
      .error .unsupportedCurve ∧
    buildKey importedLibCurves (.other "DSAPublicKey") = .error .unsupportedKeyType ∧
    verify_ehc importedLibCurves (fun _ _ => true) 0 brainpoolMsg brainpoolStore =
      .error .unsupportedCurve := by
  have h := c8_curve_and_key_dispatch importedLibCurves (fun _ _ => true) 0 brainpoolMsg
    brainpoolStore [7] brainpoolCert .unsupportedCurve
  refine ⟨(h.1 (normalizeCurveName "Prime-256 V1")).mpr (Or.inl (by decide)),
    (h.2.1 "brainpoolP256r1" 256 1 2).mpr (by decide),
    h.2.2.1 "DSAPublicKey",
    h.2.2.2 (by decide) (by decide) (by decide)⟩

/-- C9: merging two loaded sources in caller order, a key id defined by both
maps to the later-loaded source's certificate, and the merged store's keys
are duplicate-free (exactly one entry per key id). -/
theorem c9_later_source_wins (s1 s2 : CertList) (k : Bytes) (c2 : Certificate)
    (hnd : (s2.map Prod.fst).Nodup) (h2 : dictGet s2 k = some c2) :
    dictGet (mergeCertLists [s1, s2]) k = some c2 ∧
    ((mergeCertLists [s1, s2]).map Prod.fst).Nodup := by
  constructor
  · exact dictGet_dictUpdate_of_some s2 k c2 hnd h2 (dictUpdate [] s1)
  · exact nodup_keys_dictUpdate s2 (dictUpdate [] s1)
      (nodup_keys_dictUpdate s1 [] (by simp))

/-- Earlier-source certificate for the merge collision fixture. -/
def certA : Certificate := { notBefore := 0, notAfter := 10, publicKey := .other "A" }

/-- Later-source certificate for the merge collision fixture. -/
def certB : Certificate := { notBefore := 0, notAfter := 20, publicKey := .other "B" }

/-- C9 witness: two concrete one-entry sources colliding on key id 1 merge to
the later source's certificate. -/
theorem c9_later_source_wins_witness :
    dictGet (mergeCertLists [[([1], certA)], [([1], certB)]]) [1] = some certB ∧
    ((mergeCertLists [[([1], certA)], [([1], certB)]]).map Prod.fst).Nodup :=
  c9_later_source_wins [([1], certA)] [([1], certB)] [1] certB (by decide) (by decide)

/-- C10: an input whose payload lacks the health-claims key -260, or whose
-260 map lacks sub-key 1, makes per-input processing stop with the uncaught
KeyError of line 386, after the flat claims, the Is Expired line and the
verification outcome were printed; the health-claims document is never
output. -/
theorem c10_missing_health_claims_aborts (libCurves : List (String × CoseCurveT))
    (v : CoseMsg → CoseKeyD → Bool) (now : Int)
    (certs : CertList) (msg : CoseMsg) (b : Bool)
    (hv : verify_ehc libCurves v now msg certs = .ok b)
    (hm : dictGet msg.payload (-260) = none ∨
      ∃ m, dictGet msg.payload (-260) = some (.hcmap m) ∧ dictGet m 1 = none) :
    mainStep libCurves v now (some certs) msg =
      (flatClaimOuts msg.payload ++ expiredOut now msg.payload ++ [Out.verifyResult b],
       some .claimKeyError) := by
  have hx : hcExtract msg.payload = .error .claimKeyError := by
    rcases hm with h | ⟨m, hm1, hm2⟩
    · simp only [hcExtract, h]
    · simp only [hcExtract, hm1, hm2]
  simp only [mainStep, hv, hx, List.append_assoc]

/-- Message fixture without a -260 entry, resolvable against liveStore. -/
def noHcMsg : CoseMsg :=
  { phdrKid := some [9], uhdrKid := none, payload := [(1, .str "AT"), (4, .num 50)] }

/-- C10 witness: the concrete input without key -260 ends in the uncaught
KeyError with its flat claims, Is Expired line and verification outcome
printed. -/
theorem c10_missing_health_claims_aborts_witness :
    mainStep importedLibCurves (fun _ _ => true) 100 (some liveStore) noHcMsg =
      (flatClaimOuts noHcMsg.payload ++ expiredOut 100 noHcMsg.payload ++
        [Out.verifyResult true], some Err.claimKeyError) :=
  c10_missing_health_claims_aborts importedLibCurves (fun _ _ => true) 100 liveStore
    noHcMsg true (by decide) (Or.inl (by decide))

end VerifyEhc
